import Mathlib

/-!
Shallow embedding of the distributed coordination and scheduling subsystem of
goscraper: the Consul-backed coordinator (`src/pkg/monitoring/metrics.go`,
package `monitoring`) and the Kafka-backed priority job queue
(`src/config.go`, package `queue`).

Conventions of the embedding:
- Go `float64` load values and scores are modelled as exact rationals (`ℚ`);
  every concrete value used in a counterexample below is exactly
  representable in binary floating point, so the comparisons shown are the
  ones the Go code performs.
- Go `time.Time` timestamps are modelled as `Nat` instants.
- Opaque `interface{}` payload/config fields, which no examined function
  reads, are omitted from the records.
- The Consul KV store is modelled as the state the coordinator reads and
  writes through it (an association list for the node directory, a small
  record for the leader key); goroutines become explicit step
  functions/relations on that state.
-/

namespace GoScraper

/-- Node status, from the `NodeStatus` constants in package `monitoring`. -/
inductive NodeStatus where
  | active
  | inactive
  | draining
  | failed
deriving DecidableEq, Repr

/-- Load snapshot of a node (`NodeLoad` in package `monitoring`); `cpu` and
`memory` are Go `float64` values modelled as rationals. -/
structure NodeLoad where
  cpu : ℚ
  memory : ℚ
  activeJobs : Nat
  queueSize : Nat
deriving DecidableEq, Repr

/-- Worker node record (`Node` in package `monitoring`). `load` is a Go
pointer `*NodeLoad`, hence `Option`; `lastSeen` is a timestamp instant. -/
structure Node where
  id : String
  address : String
  port : Nat
  status : NodeStatus
  capabilities : List String
  load : Option NodeLoad
  metadata : List (String × String)
  lastSeen : Nat
deriving DecidableEq, Repr

/-- Scheduler-side job record (`Job` in package `monitoring`). The opaque
`Payload interface{}` field is omitted; no coordinator function reads it. -/
structure Job where
  id : String
  jobType : String
  priority : Int
  requirements : List String
  createdAt : Nat
  assignedTo : String
deriving DecidableEq, Repr

/-- Event types of `NodeEvent` (`EventNodeJoined`, `EventNodeLeft`,
`EventNodeUpdated`, `EventNodeFailed` in package `monitoring`). -/
inductive EventType where
  | joined
  | left
  | updated
  | failed
deriving DecidableEq, Repr

/-- Node change event (`NodeEvent` in package `monitoring`). -/
structure NodeEvent where
  eventType : EventType
  node : Node
deriving DecidableEq, Repr

/-! ### Job scheduling: `ConsulCoordinator.DistributeJob` and helpers -/

/-- Embeds `ConsulCoordinator.nodeSupportsJob`: every requirement of the job
must appear in the node's capability list. -/
def nodeSupportsJob (node : Node) (job : Job) : Bool :=
  job.requirements.all (fun req => node.capabilities.contains req)

/-- Embeds `ConsulCoordinator.calculateNodeScore`: returns 0 when the node
has no load snapshot (`node.Load == nil`), otherwise
`((1-cpu) + (1-memory) + 1/(activeJobs+1)) * (1 + priority/10)`. -/
def calculateNodeScore (node : Node) (job : Job) : ℚ :=
  match node.load with
  | none => 0
  | some l =>
      ((1 - l.cpu) + (1 - l.memory) + 1 / ((l.activeJobs : ℚ) + 1)) *
        (1 + (job.priority : ℚ) / 10)

/-- A node passes `DistributeJob`'s filter when its status is active and it
supports the job (both `continue` guards in the loop body). -/
def isCandidate (job : Job) (node : Node) : Bool :=
  node.status = NodeStatus.active && nodeSupportsJob node job

/-- The selection loop of `ConsulCoordinator.DistributeJob`: iterates the
node list keeping `bestNode`/`bestScore`, replacing the best only when
`bestNode == nil || score > bestScore` (strict comparison). -/
def distributeLoop (job : Job) : List Node → Option Node → ℚ → Option Node
  | [], best, _ => best
  | n :: rest, best, bestScore =>
      if isCandidate job n then
        let score := calculateNodeScore n job
        if best.isNone || score > bestScore then
          distributeLoop job rest (some n) score
        else
          distributeLoop job rest best bestScore
      else
        distributeLoop job rest best bestScore

/-- Embeds `ConsulCoordinator.DistributeJob` given the node list returned by
`GetNodes`: runs the selection loop from `bestNode = nil`, `bestScore = 0`
and fails with the code's error message when no node was selected. -/
def DistributeJob (job : Job) (nodes : List Node) : Except String Node :=
  match distributeLoop job nodes none 0 with
  | none => .error "no suitable node found for job"
  | some n => .ok n

/-- The job record as it stands after `ConsulCoordinator.DistributeJob`
returns: the Go function reads `job.Requirements` and `job.Priority` through
the helpers but never assigns to any field of `*job` (in particular not
`AssignedTo`), so the record is returned unchanged. -/
def distributeJobAfter (job : Job) (_nodes : List Node) : Job :=
  job

/-- The scoring formula exactly as the spec words it, for comparison with
`calculateNodeScore`: `(1 - cpu) + (1 - memory) + 1/(activeJobs + 1)`,
scaled by `(1 + priority/10)`. -/
def specScore (l : NodeLoad) (priority : Int) : ℚ :=
  ((1 - l.cpu) + (1 - l.memory) + 1 / ((l.activeJobs : ℚ) + 1)) *
    (1 + (priority : ℚ) / 10)

/-! ### Node registry: the coordinator's view of the Consul KV node directory

`RegisterNode` marshals the node and `Put`s it under `<prefix>/nodes/<id>`
(an upsert), `GetNode` reads and unmarshals one key, `UpdateNodeLoad` does a
read-merge-write.  The directory is modelled as an association list where a
later `Put` shadows earlier entries for the same key. -/

/-- The node directory held in the Consul KV store, keyed by node id. -/
def Registry := List (String × Node)

/-- Embeds the KV write performed by `ConsulCoordinator.RegisterNode`: an
upsert of the full node record under its id.  (The session creation and the
in-process cache insert of the Go function do not affect the directory
contents read back by `GetNode`.) -/
def RegisterNode (reg : Registry) (node : Node) : Registry :=
  (node.id, node) :: reg

/-- Embeds `ConsulCoordinator.GetNode`: reads the node stored under `id`,
`none` when absent (the Go function then returns a "node not found" error). -/
def GetNode : Registry → String → Option Node
  | [], _ => none
  | (k, n) :: rest, id => if k = id then some n else GetNode rest id

/-- Embeds `ConsulCoordinator.UpdateNodeLoad`: `GetNode`, then overwrite the
load snapshot and `LastSeen` on the fetched record, then `RegisterNode` it
back.  `now` is the instant `time.Now()` returns. -/
def UpdateNodeLoad (reg : Registry) (id : String) (load : NodeLoad)
    (now : Nat) : Except String Registry :=
  match GetNode reg id with
  | none => .error ("node not found: " ++ id)
  | some node =>
      .ok (RegisterNode reg { node with load := some load, lastSeen := now })

/-! ### Watch loop: `processNodeChanges` and the lease-renewal task -/

/-- Embeds `ConsulCoordinator.processNodeChanges`: given the previous cache
`c.nodes` and the nodes unmarshalled from the freshly listed KV pairs, emits
an `EventNodeJoined` for every id present now but not before and an
`EventNodeLeft` for every id present before but not now, then replaces the
cache with the current snapshot.  No other event type is ever emitted. -/
def processNodeChanges (cache current : List Node) :
    List NodeEvent × List Node :=
  let joins := (current.filter
      (fun n => ! cache.any (fun m => m.id == n.id))).map
    (fun n => { eventType := EventType.joined, node := n })
  let lefts := (cache.filter
      (fun n => ! current.any (fun m => m.id == n.id))).map
    (fun n => { eventType := EventType.left, node := n })
  (joins ++ lefts, current)

/-- Outcome of one tick of the `renewSession` goroutine. -/
inductive RenewOutcome where
  | ticked
  | stopped
deriving DecidableEq, Repr

/-- Embeds one ticker iteration of `ConsulCoordinator.renewSession`: on a
successful renewal the loop continues; on the first error it logs and
`return`s.  In both cases the node cache is left untouched and no event is
emitted — there is no retry budget, no registry removal and no event
emission anywhere in the function. -/
def renewStep (renewOk : Bool) (cache : List Node) :
    RenewOutcome × List Node × List NodeEvent :=
  if renewOk then (.ticked, cache, []) else (.stopped, cache, [])

/-! ### Leader election: `ElectLeader`, `IsLeader`, session expiry

The leader key is modelled as the value stored at `c.leaderKey` together
with the session currently holding its lock (`none` = unlocked).  The
session created in `ElectLeader` uses `SessionBehaviorRelease`, so when it
expires Consul releases the lock but keeps the stored value. -/

/-- State of the leader key in the Consul KV store: the stored node id (if
the key exists) and the session holding the lock (if locked). -/
structure LeaderState where
  val : Option String
  owner : Option Nat
  nextSession : Nat
deriving DecidableEq, Repr

/-- Embeds `KV().Acquire` on the leader key: succeeds exactly when no live
session holds the lock, writing the caller's id and locking the key. -/
def acquire (s : LeaderState) (nodeId : String) (sid : Nat) :
    LeaderState × Bool :=
  match s.owner with
  | none => ({ s with val := some nodeId, owner := some sid }, true)
  | some _ => (s, false)

/-- Embeds `ConsulCoordinator.ElectLeader`: create a session, attempt an
atomic acquire of the leader key; on success return the caller's own id (and
the Go code starts a renewal goroutine); on failure read the key and return
the stored holder id, or the "no leader found" error when the key is
absent. -/
def ElectLeader (s : LeaderState) (nodeId : String) :
    LeaderState × Except String String :=
  let sid := s.nextSession
  let s1 := { s with nextSession := sid + 1 }
  let (s2, acquired) := acquire s1 nodeId sid
  if acquired then
    (s2, .ok nodeId)
  else
    match s2.val with
    | some v => (s2, .ok v)
    | none => (s2, .error "no leader found")

/-- Embeds expiry of the lock-holding session (the leader's renewal stopped
and the TTL elapsed): with `SessionBehaviorRelease` the lock is released but
the stored value remains. -/
def sessionExpire (s : LeaderState) : LeaderState :=
  { s with owner := none }

/-- Embeds `ConsulCoordinator.IsLeader`: reads the leader key and compares
the stored value with the local node id. -/
def IsLeader (s : LeaderState) (nodeId : String) : Bool :=
  s.val == some nodeId

/-! ### Priority queue: `NewPriorityQueue`, `Enqueue`, `Subscribe`

(package `queue` in `src/config.go`.) -/

/-- Wire job of the queue module (`ScrapingJob` in package `queue`); the
opaque `Config interface{}` and `Metadata` fields are omitted, no queue
function reads them. -/
structure ScrapingJob where
  id : String
  url : String
  method : String
  headers : List (String × String)
  body : String
  priority : Int
  retry : Nat
  maxRetries : Nat
  createdAt : Nat
  scheduledAt : Nat
deriving DecidableEq, Repr

/-- The tier map built by `NewPriorityQueue`: for each configured priority a
topic `scraping-jobs-p<priority>`; a later duplicate priority overwrites an
earlier one, like the Go map assignment. -/
def pqTopics (priorities : List Int) : List (Int × String) :=
  priorities.map (fun p => (p, "scraping-jobs-p" ++ toString p))

/-- Go map read `p.queues[priority]`: the last assignment for a key wins. -/
def pqLookup : List (Int × String) → Int → Option String
  | [], _ => none
  | (k, t) :: rest, p =>
      match pqLookup rest p with
      | some t2 => some t2
      | none => if k = p then some t else none

/-- Embeds `PriorityQueue.Enqueue`: look the job's priority up in the tier
map; on a miss silently fall back to the priority-0 tier; when that is also
absent the Go code calls `Enqueue` on a nil `*JobQueue` and dereferences
`j.queue` — a panic, modelled as `none`.  `some topic` is the topic the job
is published on. -/
def pqEnqueue (priorities : List Int) (job : ScrapingJob) : Option String :=
  match pqLookup (pqTopics priorities) job.priority with
  | some t => some t
  | none => pqLookup (pqTopics priorities) 0

/-- The order in which `PriorityQueue.Subscribe` subscribes tiers:
`for priority := 10; priority >= 0; priority--`, skipping priorities with no
configured tier. -/
def subscribeOrder (priorities : List Int) : List Int :=
  (((List.range 11).reverse).map (fun i => (i : Int))).filter
    (fun p => (pqLookup (pqTopics priorities) p).isSome)

/-- Pending jobs per priority tier (the per-topic Kafka partitions the tier
consumers read, in order). -/
def TierState := Int → List ScrapingJob

/-- One consumption event of the system started by `PriorityQueue.Subscribe`.
Each subscribed tier gets its own reader goroutine (`KafkaQueue.Subscribe`
spawns an independent `go func` per topic) that pulls the next message of
its own topic; the goroutines share no state and never inspect other tiers,
so a pull from tier `p` is enabled exactly when `p` has a subscribed tier
and its queue is nonempty — regardless of the contents of any other tier. -/
inductive PullStep (priorities : List Int) :
    TierState → Int → ScrapingJob → TierState → Prop where
  | pull (s : TierState) (p : Int) (j : ScrapingJob) (rest : List ScrapingJob)
      (hsub : (pqLookup (pqTopics priorities) p).isSome)
      (hq : s p = j :: rest) :
      PullStep priorities s p j (fun q => if q = p then rest else s q)

/-! ### Kafka consumer loop: `KafkaQueue.Subscribe` handler-error path -/

/-- State of one tier's consumer: the messages still pending on the topic
and the messages handled successfully.  The Go code maintains nothing else:
there is no retry queue and no dead-letter topic anywhere in the queue
module. -/
structure ConsumerState where
  pending : List ScrapingJob
  delivered : List ScrapingJob
deriving DecidableEq, Repr

/-- Embeds one iteration of the reader goroutine in `KafkaQueue.Subscribe`:
`ReadMessage` pops the next message; when the handler succeeds the message
counts as delivered; when the handler returns an error the code executes
`continue` (the comment `//TODO: RETRY LOGIC IMPLEMANTATION` marks the spot)
— the message is neither re-enqueued, nor retried, nor routed anywhere: it
is dropped. -/
def consumeStep (handlerOk : ScrapingJob → Bool) (s : ConsumerState) :
    ConsumerState :=
  match s.pending with
  | [] => s
  | m :: rest =>
      if handlerOk m then
        { pending := rest, delivered := s.delivered ++ [m] }
      else
        { pending := rest, delivered := s.delivered }

/-! ### Lemmas about the selection loop of `DistributeJob` -/

lemma isCandidate_iff (job : Job) (n : Node) :
    isCandidate job n = true ↔
      (n.status = NodeStatus.active ∧
        ∀ req ∈ job.requirements, req ∈ n.capabilities) := by
  simp [isCandidate, nodeSupportsJob, List.all_eq_true, List.elem_iff]

lemma distributeLoop_some_ne_none (job : Job) :
    ∀ (l : List Node) (b : Node) (bs : ℚ),
      distributeLoop job l (some b) bs ≠ none := by
  intro l
  induction l with
  | nil => intro b bs h; simp [distributeLoop] at h
  | cons n rest ih =>
      intro b bs h
      simp only [distributeLoop, Option.isNone_some, Bool.false_or] at h
      by_cases hc : isCandidate job n = true
      · rw [if_pos hc] at h
        by_cases hgt : calculateNodeScore n job > bs
        · rw [if_pos (by simpa using hgt)] at h
          exact ih n (calculateNodeScore n job) h
        · rw [if_neg (by simpa using hgt)] at h
          exact ih b bs h
      · rw [if_neg hc] at h
        exact ih b bs h

lemma distributeLoop_char (job : Job) :
    ∀ (l : List Node) (b : Node) (r : Node),
      distributeLoop job l (some b) (calculateNodeScore b job) = some r →
      (r = b ∧ ∀ m ∈ l, isCandidate job m = true →
          calculateNodeScore m job ≤ calculateNodeScore b job) ∨
      (∃ pre post, l = pre ++ r :: post ∧ isCandidate job r = true ∧
        calculateNodeScore b job < calculateNodeScore r job ∧
        (∀ m ∈ pre, isCandidate job m = true →
          calculateNodeScore m job < calculateNodeScore r job) ∧
        (∀ m ∈ post, isCandidate job m = true →
          calculateNodeScore m job ≤ calculateNodeScore r job)) := by
  intro l
  induction l with
  | nil =>
      intro b r h
      simp only [distributeLoop, Option.some.injEq] at h
      left
      exact ⟨h.symm, by simp⟩
  | cons n rest ih =>
      intro b r h
      simp only [distributeLoop, Option.isNone_some, Bool.false_or] at h
      by_cases hc : isCandidate job n = true
      · rw [if_pos hc] at h
        by_cases hgt : calculateNodeScore n job > calculateNodeScore b job
        · rw [if_pos (by simpa using hgt)] at h
          rcases ih n r h with ⟨hrn, hmax⟩ | ⟨pre, post, hl, hcr, hbr, hpre, hpost⟩
          · subst hrn
            right
            refine ⟨[], rest, by simp, hc, hgt, by simp, hmax⟩
          · right
            refine ⟨n :: pre, post, by rw [hl]; rfl, hcr, lt_trans hgt hbr, ?_, hpost⟩
            intro m hm hcm
            rcases List.mem_cons.mp hm with hmn | hmp
            · subst hmn; exact hbr
            · exact hpre m hmp hcm
        · rw [if_neg (by simpa using hgt)] at h
          rcases ih b r h with ⟨hrb, hmax⟩ | ⟨pre, post, hl, hcr, hbr, hpre, hpost⟩
          · left
            refine ⟨hrb, ?_⟩
            intro m hm hcm
            rcases List.mem_cons.mp hm with hmn | hmp
            · subst hmn; exact le_of_not_lt hgt
            · exact hmax m hmp hcm
          · right
            refine ⟨n :: pre, post, by rw [hl]; rfl, hcr, hbr, ?_, hpost⟩
            intro m hm hcm
            rcases List.mem_cons.mp hm with hmn | hmp
            · subst hmn; exact lt_of_le_of_lt (le_of_not_lt hgt) hbr
            · exact hpre m hmp hcm
      · rw [if_neg hc] at h
        rcases ih b r h with ⟨hrb, hmax⟩ | ⟨pre, post, hl, hcr, hbr, hpre, hpost⟩
        · left
          refine ⟨hrb, ?_⟩
          intro m hm hcm
          rcases List.mem_cons.mp hm with hmn | hmp
          · subst hmn; exact absurd hcm hc
          · exact hmax m hmp hcm
        · right
          refine ⟨n :: pre, post, by rw [hl]; rfl, hcr, hbr, ?_, hpost⟩
          intro m hm hcm
          rcases List.mem_cons.mp hm with hmn | hmp
          · subst hmn; exact absurd hcm hc
          · exact hpre m hmp hcm

lemma distributeLoop_start (job : Job) :
    ∀ (l : List Node) (r : Node), distributeLoop job l none 0 = some r →
      ∃ pre c post, l = pre ++ c :: post ∧
        (∀ m ∈ pre, isCandidate job m = false) ∧ isCandidate job c = true ∧
        distributeLoop job post (some c) (calculateNodeScore c job) = some r := by
  intro l
  induction l with
  | nil => intro r h; simp [distributeLoop] at h
  | cons n rest ih =>
      intro r h
      simp only [distributeLoop, Option.isNone_none, Bool.true_or, if_true] at h
      by_cases hc : isCandidate job n = true
      · rw [if_pos hc] at h
        exact ⟨[], n, rest, rfl, by simp, hc, h⟩
      · rw [if_neg hc] at h
        rcases ih r h with ⟨pre, c, post, hl, hpre, hcc, hrest⟩
        refine ⟨n :: pre, c, post, by rw [hl]; rfl, ?_, hcc, hrest⟩
        intro m hm
        rcases List.mem_cons.mp hm with hmn | hmp
        · subst hmn; exact eq_false_of_ne_true hc
        · exact hpre m hmp

lemma DistributeJob_ok_char (job : Job) (nodes : List Node) (r : Node)
    (h : DistributeJob job nodes = .ok r) :
    ∃ pre post, nodes = pre ++ r :: post ∧ isCandidate job r = true ∧
      (∀ m ∈ pre, isCandidate job m = true →
        calculateNodeScore m job < calculateNodeScore r job) ∧
      (∀ m ∈ post, isCandidate job m = true →
        calculateNodeScore m job ≤ calculateNodeScore r job) := by
  unfold DistributeJob at h
  rcases hd : distributeLoop job nodes none 0 with _ | x
  · rw [hd] at h; exact absurd h (by simp)
  · rw [hd] at h
    simp only [Except.ok.injEq] at h
    subst h
    rcases distributeLoop_start job nodes x hd with
      ⟨pre0, c, post0, hl, hpre0, hcc, hrest⟩
    rcases distributeLoop_char job post0 c x hrest with
      ⟨hrc, hmax⟩ | ⟨pre1, post1, hp, hcr, hbr, hpre1, hpost1⟩
    · subst hrc
      refine ⟨pre0, post0, hl, hcc, ?_, hmax⟩
      intro m hm hcm
      exact absurd hcm (by simp [hpre0 m hm])
    · refine ⟨pre0 ++ c :: pre1, post1, ?_, hcr, ?_, hpost1⟩
      · rw [hl, hp]
        simp
      · intro m hm hcm
        rcases List.mem_append.mp hm with hm0 | hm1
        · exact absurd hcm (by simp [hpre0 m hm0])
        · rcases List.mem_cons.mp hm1 with hmc | hmp
          · subst hmc; exact hbr
          · exact hpre1 m hmp hcm

lemma DistributeJob_ok_max (job : Job) (nodes : List Node) (r : Node)
    (h : DistributeJob job nodes = .ok r) :
    r ∈ nodes ∧ isCandidate job r = true ∧
      ∀ m ∈ nodes, isCandidate job m = true →
        calculateNodeScore m job ≤ calculateNodeScore r job := by
  rcases DistributeJob_ok_char job nodes r h with ⟨pre, post, hl, hcr, hpre, hpost⟩
  subst hl
  refine ⟨by simp, hcr, ?_⟩
  intro m hm hcm
  rcases List.mem_append.mp hm with hm0 | hm1
  · exact le_of_lt (hpre m hm0 hcm)
  · rcases List.mem_cons.mp hm1 with hmr | hmp
    · subst hmr; exact le_refl _
    · exact hpost m hmp hcm

lemma distributeLoop_none_iff (job : Job) :
    ∀ (l : List Node), distributeLoop job l none 0 = none ↔
      ∀ m ∈ l, isCandidate job m = false := by
  intro l
  induction l with
  | nil => simp [distributeLoop]
  | cons n rest ih =>
      simp only [distributeLoop, Option.isNone_none, Bool.true_or, if_true]
      by_cases hc : isCandidate job n = true
      · rw [if_pos hc]
        constructor
        · intro h; exact absurd h (distributeLoop_some_ne_none job rest n _)
        · intro h; exact absurd hc (by simp [h n (List.mem_cons_self n rest)])
      · rw [if_neg hc]
        constructor
        · intro h m hm
          rcases List.mem_cons.mp hm with hmn | hmp
          · subst hmn; exact eq_false_of_ne_true hc
          · exact (ih.mp h) m hmp
        · intro h
          exact ih.mpr (fun m hm => h m (List.mem_cons_of_mem n hm))

lemma DistributeJob_error_iff (job : Job) (nodes : List Node) :
    DistributeJob job nodes = .error "no suitable node found for job" ↔
      ∀ m ∈ nodes, isCandidate job m = false := by
  unfold DistributeJob
  rcases hd : distributeLoop job nodes none 0 with _ | x
  · simp [← distributeLoop_none_iff job nodes, hd]
  · simp only [Except.error.injEq]
    constructor
    · intro h; exact absurd h (by simp)
    · intro h
      exact absurd hd (by simp [(distributeLoop_none_iff job nodes).mpr h])

/-! ### Lemmas about the priority-queue tier map -/

lemma pqLookup_topics (priorities : List Int) (p : Int) :
    pqLookup (pqTopics priorities) p =
      if p ∈ priorities then some ("scraping-jobs-p" ++ toString p)
      else none := by
  induction priorities with
  | nil => simp [pqTopics, pqLookup]
  | cons q rest ih =>
      simp only [pqTopics, List.map_cons] at ih ⊢
      simp only [pqLookup]
      rw [ih]
      by_cases hp : p ∈ rest
      · simp [hp, List.mem_cons]
      · by_cases hq : q = p
        · subst hq
          simp [hp, List.mem_cons]
        · have hpq : ¬ p = q := fun hx => hq hx.symm
          simp [hp, hq, List.mem_cons, hpq]

lemma subscribeOrder_sorted (priorities : List Int) :
    List.Sorted (· > ·) (subscribeOrder priorities) :=
  List.Pairwise.filter _ (by decide)

lemma subscribeOrder_mem (priorities : List Int) (q : Int) :
    q ∈ subscribeOrder priorities ↔ 0 ≤ q ∧ q ≤ 10 ∧ q ∈ priorities := by
  unfold subscribeOrder
  rw [List.mem_filter]
  rw [pqLookup_topics]
  constructor
  · rintro ⟨hbase, hcond⟩
    by_cases hq : q ∈ priorities
    · simp at hbase
      rcases hbase with ⟨i, hi, rfl⟩
      exact ⟨by omega, by omega, hq⟩
    · rw [if_neg hq] at hcond
      simp at hcond
  · rintro ⟨h0, h10, hq⟩
    refine ⟨?_, by simp [hq]⟩
    simp
    exact ⟨q.toNat, by omega, by omega⟩

/-! ### Concrete inputs used by witnesses and counterexamples -/

/-- A queue-module job with the given priority, other fields fixed. -/
def scrJobP (p : Int) (name : String) : ScrapingJob :=
  { id := name, url := "http://example.com", method := "GET", headers := [],
    body := "", priority := p, retry := 0, maxRetries := 3, createdAt := 0,
    scheduledAt := 0 }

/-- Tier contents of Scenario D: three jobs pending at priority 1 and one at
priority 9. -/
def tierStateD : TierState := fun p =>
  if p = 1 then [scrJobP 1 "j1a", scrJobP 1 "j1b", scrJobP 1 "j1c"]
  else if p = 9 then [scrJobP 9 "j9"] else []

/-! ### C1 -/

/-- C1 counterexample: with tiers 1 and 9 configured, three jobs pending at
priority 1 and one at priority 9 (Scenario D), the consumption system
started by `PriorityQueue.Subscribe` admits a pull of a priority-1 job at an
instant when the priority-9 tier is nonempty, because every tier has its own
independent reader goroutine — refuting the claim that a lower-priority tier
is pulled only when every higher-priority tier is empty. -/
theorem c1_counterexample :
    PullStep [1, 9] tierStateD 1 (scrJobP 1 "j1a")
      (fun q => if q = 1 then [scrJobP 1 "j1b", scrJobP 1 "j1c"]
        else tierStateD q) ∧
    tierStateD 9 = [scrJobP 9 "j9"] ∧ ((1 : Int) < 9) :=
  ⟨PullStep.pull tierStateD 1 (scrJobP 1 "j1a")
      [scrJobP 1 "j1b", scrJobP 1 "j1c"] rfl rfl,
    rfl, by norm_num⟩

/-- C1 amended: `PriorityQueue.Subscribe` subscribes the configured tiers in
strictly descending priority order (10 down to 0), but each tier is consumed
by its own independent goroutine: a pull of job `j` from tier `p` is enabled
exactly when tier `p` is configured and `j` heads its queue, regardless of
the contents of any other (in particular any higher-priority) tier. -/
theorem c1_amended_independent_tiers (priorities : List Int) (s : TierState)
    (p : Int) (j : ScrapingJob) :
    ((∃ s2, PullStep priorities s p j s2) ↔
      ((pqLookup (pqTopics priorities) p).isSome ∧ ∃ rest, s p = j :: rest)) ∧
    List.Sorted (· > ·) (subscribeOrder priorities) ∧
    (∀ q : Int, q ∈ subscribeOrder priorities ↔
      (0 ≤ q ∧ q ≤ 10 ∧ q ∈ priorities)) := by
  refine ⟨?_, subscribeOrder_sorted priorities, subscribeOrder_mem priorities⟩
  constructor
  · rintro ⟨s2, hstep⟩
    cases hstep with
    | pull rest hsub hq => exact ⟨hsub, rest, hq⟩
  · rintro ⟨hsub, rest, hq⟩
    exact ⟨_, PullStep.pull s p j rest hsub hq⟩

/-! ### C2 -/

/-- C2: evaluating the consumer loop of `KafkaQueue.Subscribe` at a failing
input: a handler error makes the loop `continue` past the message — it is
removed from the topic and neither redelivered, nor dead-lettered, nor
recorded anywhere (the state has no place for it); the job is silently
dropped, contradicting the documented retry/dead-letter contract (the code
itself marks the spot `//TODO: RETRY LOGIC IMPLEMANTATION`). -/
theorem c2_handler_error_silent_drop :
    consumeStep (fun _ => false)
        { pending := [scrJobP 5 "jx"], delivered := [] } =
      { pending := [], delivered := [] } ∧
    ∀ (handler : ScrapingJob → Bool) (s : ConsumerState) (m : ScrapingJob)
      (rest : List ScrapingJob), s.pending = m :: rest → handler m = false →
      consumeStep handler s = { pending := rest, delivered := s.delivered } := by
  refine ⟨rfl, ?_⟩
  intro handler s m rest hp hm
  simp [consumeStep, hp, hm]

/-! ### C10 -/

/-- C10: a job whose priority has no configured tier is silently routed to
the priority-0 tier topic `scraping-jobs-p0`; when no priority-0 tier was
configured either, the Go map lookup yields a nil `*JobQueue` and
`queue.Enqueue` dereferences it — a panic (`none` here) instead of an
error. -/
theorem c10_enqueue_fallback (priorities : List Int) (job : ScrapingJob)
    (h : job.priority ∉ priorities) :
    (((0 : Int) ∈ priorities →
        pqEnqueue priorities job = some "scraping-jobs-p0") ∧
      ((0 : Int) ∉ priorities → pqEnqueue priorities job = none)) := by
  have hnone : pqLookup (pqTopics priorities) job.priority = none := by
    rw [pqLookup_topics, if_neg h]
  constructor
  · intro h0
    unfold pqEnqueue
    rw [hnone]
    show pqLookup (pqTopics priorities) 0 = some "scraping-jobs-p0"
    rw [pqLookup_topics, if_pos h0]
    rfl
  · intro h0
    unfold pqEnqueue
    rw [hnone]
    show pqLookup (pqTopics priorities) 0 = none
    rw [pqLookup_topics, if_neg h0]

/-- C10 witness: a priority-5 job with tiers {0, 3} configured is published
on `scraping-jobs-p0`; with tiers {1, 2} configured the enqueue
nil-dereferences (panics). -/
theorem c10_witness :
    pqEnqueue [0, 3] (scrJobP 5 "jw") = some "scraping-jobs-p0" ∧
    pqEnqueue [1, 2] (scrJobP 5 "jw") = none :=
  ⟨(c10_enqueue_fallback [0, 3] (scrJobP 5 "jw") (by decide)).1 (by decide),
    (c10_enqueue_fallback [1, 2] (scrJobP 5 "jw") (by decide)).2 (by decide)⟩

/-! ### Concrete nodes and jobs for the scheduler claims -/

/-- Scenario A node N1: cpu 0.1, memory 0.1, 0 active jobs, capability
`http`. -/
def nodeN1 : Node :=
  { id := "n1", address := "10.0.0.1", port := 8080, status := .active,
    capabilities := ["http"],
    load := some { cpu := 1/10, memory := 1/10, activeJobs := 0, queueSize := 0 },
    metadata := [], lastSeen := 0 }

/-- Scenario A node N2: cpu 0.9, memory 0.9, 5 active jobs, capability
`http`. -/
def nodeN2 : Node :=
  { id := "n2", address := "10.0.0.2", port := 8080, status := .active,
    capabilities := ["http"],
    load := some { cpu := 9/10, memory := 9/10, activeJobs := 5, queueSize := 0 },
    metadata := [], lastSeen := 0 }

/-- Scenario A job: requirements `[http]`, priority 5. -/
def jobHttp5 : Job :=
  { id := "job-a", jobType := "scrape", priority := 5,
    requirements := ["http"], createdAt := 0, assignedTo := "" }

lemma scenarioA_eval : DistributeJob jobHttp5 [nodeN1, nodeN2] = .ok nodeN1 := by
  norm_num [DistributeJob, distributeLoop, isCandidate, nodeSupportsJob,
    calculateNodeScore, nodeN1, nodeN2, jobHttp5]

/-- Tie node listed first: cpu 0, memory 0, 1 active job — score
(1 + 1 + 1/2) = 2.5 (all values exactly representable in float64). -/
def nodeTieB : Node :=
  { id := "nb", address := "10.0.0.4", port := 8080, status := .active,
    capabilities := [],
    load := some { cpu := 0, memory := 0, activeJobs := 1, queueSize := 0 },
    metadata := [], lastSeen := 0 }

/-- Tie node listed second: cpu 0.5, memory 0, 0 active jobs — score
(1/2 + 1 + 1) = 2.5, equal to `nodeTieB`, with strictly fewer active jobs
and the smaller id. -/
def nodeTieA : Node :=
  { id := "na", address := "10.0.0.3", port := 8080, status := .active,
    capabilities := [],
    load := some { cpu := 1/2, memory := 0, activeJobs := 0, queueSize := 0 },
    metadata := [], lastSeen := 0 }

/-- A job with no requirements and priority 0 (priority weight 1). -/
def jobTie : Job :=
  { id := "job-t", jobType := "scrape", priority := 0, requirements := [],
    createdAt := 0, assignedTo := "" }

lemma scenarioTie_eval :
    DistributeJob jobTie [nodeTieB, nodeTieA] = .ok nodeTieB := by
  norm_num [DistributeJob, distributeLoop, isCandidate, nodeSupportsJob,
    calculateNodeScore, nodeTieB, nodeTieA, jobTie]

/-! ### C4 -/

/-- C4: `DistributeJob` selects only among nodes that are active and whose
capability list contains every requirement of the job, and it returns the
"no suitable node found for job" error exactly when no listed node passes
that filter; in particular, when no node advertises `browser_scraping`, a
job requiring it gets that error. -/
theorem c4_distribute_filter_error (job : Job) (nodes : List Node) :
    (DistributeJob job nodes = .error "no suitable node found for job" ↔
      ∀ n ∈ nodes, ¬(n.status = NodeStatus.active ∧
        ∀ req ∈ job.requirements, req ∈ n.capabilities)) ∧
    (∀ r, DistributeJob job nodes = .ok r →
      r.status = NodeStatus.active ∧
        ∀ req ∈ job.requirements, req ∈ r.capabilities) ∧
    (job.requirements = ["browser_scraping"] →
      (∀ n ∈ nodes, "browser_scraping" ∉ n.capabilities) →
      DistributeJob job nodes = .error "no suitable node found for job") := by
  have hiff : ∀ n : Node, isCandidate job n = false ↔
      ¬(n.status = NodeStatus.active ∧
        ∀ req ∈ job.requirements, req ∈ n.capabilities) := by
    intro n
    rw [Bool.eq_false_iff]
    exact not_congr (isCandidate_iff job n)
  refine ⟨?_, ?_, ?_⟩
  · rw [DistributeJob_error_iff]
    constructor
    · intro h n hn
      exact (hiff n).mp (h n hn)
    · intro h n hn
      exact (hiff n).mpr (h n hn)
  · intro r h
    rcases DistributeJob_ok_max job nodes r h with ⟨_, hcr, _⟩
    exact (isCandidate_iff job r).mp hcr
  · intro hreq hcap
    rw [DistributeJob_error_iff]
    intro n hn
    refine (hiff n).mpr ?_
    rintro ⟨hst, hsup⟩
    exact hcap n hn (hsup "browser_scraping" (by simp [hreq]))

/-! ### C5 -/

lemma calculateNodeScore_eq_spec (n : Node) (job : Job) (l : NodeLoad)
    (h : n.load = some l) :
    calculateNodeScore n job = specScore l job.priority := by
  simp [calculateNodeScore, specScore, h]

/-- C5: when every listed node carries a load snapshot, a successful
`DistributeJob` returns a node whose spec score
`((1-cpu) + (1-memory) + 1/(activeJobs+1)) * (1 + priority/10)` is maximal
over the active, capable candidates. -/
theorem c5_score_maximal (job : Job) (nodes : List Node) (r : Node)
    (h : DistributeJob job nodes = .ok r)
    (hload : ∀ n ∈ nodes, (n.load).isSome) :
    ∃ lr, r.load = some lr ∧
      ∀ m ∈ nodes, isCandidate job m = true →
        ∀ lm, m.load = some lm →
          specScore lm job.priority ≤ specScore lr job.priority := by
  rcases DistributeJob_ok_max job nodes r h with ⟨hmem, hcr, hmax⟩
  rcases Option.isSome_iff_exists.mp (hload r hmem) with ⟨lr, hlr⟩
  refine ⟨lr, hlr, ?_⟩
  intro m hm hcm lm hlm
  have hle := hmax m hm hcm
  rwa [calculateNodeScore_eq_spec m job lm hlm,
    calculateNodeScore_eq_spec r job lr hlr] at hle

/-- C5 witness (Scenario A): with N1 (cpu .1, mem .1, 0 active) and N2
(cpu .9, mem .9, 5 active) both advertising `http`, the job with
requirements `[http]` and priority 5 selects N1, whose spec score is
maximal. -/
theorem c5_witness :
    DistributeJob jobHttp5 [nodeN1, nodeN2] = .ok nodeN1 ∧
    (∃ lr, nodeN1.load = some lr ∧
      ∀ m ∈ [nodeN1, nodeN2], isCandidate jobHttp5 m = true →
        ∀ lm, m.load = some lm →
          specScore lm jobHttp5.priority ≤ specScore lr jobHttp5.priority) :=
  ⟨scenarioA_eval,
    c5_score_maximal jobHttp5 [nodeN1, nodeN2] nodeN1 scenarioA_eval
      (by intro n hn; fin_cases hn <;> simp [nodeN1, nodeN2])⟩

/-! ### C6 -/

/-- C6 counterexample: two active capable nodes share the maximal score 2.5,
yet `DistributeJob` returns the node listed first (`nodeTieB`), which has
strictly more active jobs (1 vs 0) and the larger id ("nb" vs "na") — so
ties are not broken by lowest activeJobs, nor by lowest node id. -/
theorem c6_counterexample :
    DistributeJob jobTie [nodeTieB, nodeTieA] = .ok nodeTieB ∧
    isCandidate jobTie nodeTieA = true ∧
    calculateNodeScore nodeTieA jobTie = calculateNodeScore nodeTieB jobTie ∧
    nodeTieA.load =
      some { cpu := 1/2, memory := 0, activeJobs := 0, queueSize := 0 } ∧
    nodeTieB.load =
      some { cpu := 0, memory := 0, activeJobs := 1, queueSize := 0 } ∧
    nodeTieA.id = "na" ∧ nodeTieB.id = "nb" ∧ nodeTieA ≠ nodeTieB := by
  refine ⟨scenarioTie_eval, rfl, ?_, rfl, rfl, rfl, rfl, ?_⟩
  · norm_num [calculateNodeScore, nodeTieA, nodeTieB, jobTie]
  · intro hEq
    have hid : nodeTieA.id = nodeTieB.id := congrArg Node.id hEq
    exact absurd hid (by decide)

/-- C6 amended: `DistributeJob` returns the first node in list order that
attains the maximal score among the active, capable candidates (the loop
keeps the incumbent on ties, using a strict `>` comparison); there is no
activeJobs or node-id tie-break. -/
theorem c6_amended_first_max (job : Job) (nodes : List Node) (r : Node)
    (h : DistributeJob job nodes = .ok r) :
    ∃ pre post, nodes = pre ++ r :: post ∧ isCandidate job r = true ∧
      (∀ m ∈ pre, isCandidate job m = true →
        calculateNodeScore m job < calculateNodeScore r job) ∧
      (∀ m ∈ post, isCandidate job m = true →
        calculateNodeScore m job ≤ calculateNodeScore r job) :=
  DistributeJob_ok_char job nodes r h

/-- C6 witness: the amended statement at the tie scenario. -/
theorem c6_witness :
    ∃ pre post, ([nodeTieB, nodeTieA] : List Node) = pre ++ nodeTieB :: post ∧
      isCandidate jobTie nodeTieB = true ∧
      (∀ m ∈ pre, isCandidate jobTie m = true →
        calculateNodeScore m jobTie < calculateNodeScore nodeTieB jobTie) ∧
      (∀ m ∈ post, isCandidate jobTie m = true →
        calculateNodeScore m jobTie ≤ calculateNodeScore nodeTieB jobTie) :=
  c6_amended_first_max jobTie [nodeTieB, nodeTieA] nodeTieB scenarioTie_eval

/-! ### C7 -/

/-- C7 counterexample: a successful `DistributeJob` call that chooses
`nodeN1` leaves the job's `assignedTo` field untouched — it still holds its
prior value `""`, not the chosen node's id `"n1"`. -/
theorem c7_counterexample :
    DistributeJob jobHttp5 [nodeN1, nodeN2] = .ok nodeN1 ∧
    nodeN1.id = "n1" ∧
    (distributeJobAfter jobHttp5 [nodeN1, nodeN2]).assignedTo = "" ∧
    (distributeJobAfter jobHttp5 [nodeN1, nodeN2]).assignedTo ≠ nodeN1.id :=
  ⟨scenarioA_eval, rfl, rfl, by decide⟩

/-- C7 amended: `DistributeJob` returns the chosen node but records nothing
on the job: the job record after the call is the input record, and in
particular `assignedTo` keeps its prior value — the scheduler never writes
it. -/
theorem c7_amended_no_assignment (job : Job) (nodes : List Node) (r : Node)
    (h : DistributeJob job nodes = .ok r) :
    distributeJobAfter job nodes = job ∧
    (distributeJobAfter job nodes).assignedTo = job.assignedTo :=
  ⟨rfl, rfl⟩

/-- C7 witness: the amended statement at Scenario A. -/
theorem c7_witness :
    distributeJobAfter jobHttp5 [nodeN1, nodeN2] = jobHttp5 ∧
    (distributeJobAfter jobHttp5 [nodeN1, nodeN2]).assignedTo =
      jobHttp5.assignedTo :=
  c7_amended_no_assignment jobHttp5 [nodeN1, nodeN2] nodeN1 scenarioA_eval

/-! ### C8 -/

lemma GetNode_RegisterNode (reg : Registry) (m : Node) (k : String) :
    GetNode (RegisterNode reg m) k =
      if m.id = k then some m else GetNode reg k := rfl

/-- C8: `UpdateNodeLoad` rewrites only the node's load snapshot and
`lastSeen` (expressed by the record update `{ n with load, lastSeen }`,
which keeps id, address, port, status, capabilities and metadata), touches
no other key, and replaying it with the identical load value changes the
stored node only in `lastSeen`. -/
theorem c8_update_load_frame (reg : Registry) (id : String) (load : NodeLoad)
    (t1 t2 : Nat) (n : Node) (hn : GetNode reg id = some n)
    (hid : n.id = id) :
    ∃ reg1 reg2,
      UpdateNodeLoad reg id load t1 = .ok reg1 ∧
      GetNode reg1 id = some { n with load := some load, lastSeen := t1 } ∧
      (∀ k, k ≠ id → GetNode reg1 k = GetNode reg k) ∧
      UpdateNodeLoad reg1 id load t2 = .ok reg2 ∧
      GetNode reg2 id = some { n with load := some load, lastSeen := t2 } ∧
      (∀ k, k ≠ id → GetNode reg2 k = GetNode reg1 k) := by
  have hid1 : ({ n with load := some load, lastSeen := t1 } : Node).id = id := hid
  have hid2 : ({ n with load := some load, lastSeen := t2 } : Node).id = id := hid
  refine ⟨RegisterNode reg { n with load := some load, lastSeen := t1 },
    RegisterNode (RegisterNode reg { n with load := some load, lastSeen := t1 })
      { n with load := some load, lastSeen := t2 }, ?_, ?_, ?_, ?_, ?_, ?_⟩
  · unfold UpdateNodeLoad
    rw [hn]
  · rw [GetNode_RegisterNode, if_pos hid1]
  · intro k hk
    rw [GetNode_RegisterNode,
      if_neg (fun h : _ = k => hk (h.symm.trans hid1))]
  · unfold UpdateNodeLoad
    rw [GetNode_RegisterNode, if_pos hid1]
  · rw [GetNode_RegisterNode, if_pos hid2]
  · intro k hk
    rw [GetNode_RegisterNode,
      if_neg (fun h : _ = k => hk (h.symm.trans hid2))]

/-- A load value used by the C8 witness. -/
def loadW : NodeLoad := { cpu := 1/4, memory := 1/4, activeJobs := 2, queueSize := 3 }

/-- C8 witness: the frame property at a concrete one-node registry, updating
at instants 5 and then 7 with the identical load value. -/
theorem c8_witness :
    ∃ reg1 reg2,
      UpdateNodeLoad (RegisterNode [] nodeN1) "n1" loadW 5 = .ok reg1 ∧
      GetNode reg1 "n1" =
        some { nodeN1 with load := some loadW, lastSeen := 5 } ∧
      (∀ k, k ≠ "n1" → GetNode reg1 k = GetNode (RegisterNode [] nodeN1) k) ∧
      UpdateNodeLoad reg1 "n1" loadW 7 = .ok reg2 ∧
      GetNode reg2 "n1" =
        some { nodeN1 with load := some loadW, lastSeen := 7 } ∧
      (∀ k, k ≠ "n1" → GetNode reg2 k = GetNode reg1 k) :=
  c8_update_load_frame (RegisterNode [] nodeN1) "n1" loadW 5 7 nodeN1
    (by rw [GetNode_RegisterNode, if_pos (show nodeN1.id = "n1" from rfl)]) rfl

/-! ### C9 -/

/-- C9 counterexample: when the leader key is already locked by another
session storing the caller's own id (the caller is the sitting leader),
`ElectLeader` returns the caller's own id although the atomic acquire
failed — refuting "returns the caller's own node id exactly when the
acquire succeeds".  The acquire shown is the one `ElectLeader` performs
internally (session id 1, next-session counter already bumped to 2). -/
theorem c9_counterexample :
    (acquire { val := some "L1", owner := some 0, nextSession := 2 } "L1" 1).2
      = false ∧
    (ElectLeader { val := some "L1", owner := some 0, nextSession := 1 } "L1").2
      = .ok "L1" :=
  ⟨rfl, rfl⟩

/-- C9 amended: `ElectLeader` returns the caller's id whenever the acquire
succeeds (lock free); when the lock is held the acquire fails, the stored
value is left unchanged and the stored holder's id is returned as a read —
which can be the caller's own id if the caller already holds the lock.
After the lock-holding session expires (`SessionBehaviorRelease`: lock
released, value retained), `ElectLeader` from another node succeeds and
`IsLeader` on the former leader returns false. -/
theorem c9_amended_elect (s : LeaderState) (me newId : String) :
    (s.owner = none → (ElectLeader s me).2 = .ok me ∧
      (ElectLeader s me).1.val = some me ∧
      IsLeader (ElectLeader s me).1 me = true) ∧
    (∀ sid, s.owner = some sid →
      (ElectLeader s me).1.val = s.val ∧
      ∀ v, s.val = some v → (ElectLeader s me).2 = .ok v) ∧
    (∀ l1, s.val = some l1 → newId ≠ l1 →
      (ElectLeader (sessionExpire s) newId).2 = .ok newId ∧
      IsLeader (ElectLeader (sessionExpire s) newId).1 l1 = false ∧
      IsLeader (ElectLeader (sessionExpire s) newId).1 newId = true) := by
  refine ⟨?_, ?_, ?_⟩
  · intro h
    simp [ElectLeader, acquire, IsLeader, h]
  · intro sid h
    constructor
    · simp [ElectLeader, acquire, h]
      cases hv : s.val with
      | none => simp
      | some v => simp
    · intro v hv
      simp [ElectLeader, acquire, h, hv]
  · intro l1 hval hne
    simp [ElectLeader, acquire, sessionExpire, IsLeader, hval, hne]

/-! ### C3 -/

lemma countP_id_eq_zero (nid : String) (l : List Node)
    (h : ∀ x ∈ l, x.id ≠ nid) :
    l.countP (fun m => decide (m.id = nid)) = 0 :=
  List.countP_eq_zero.mpr (by intro a ha; simpa using h a ha)

lemma countP_filter_id_eq_one (n : Node) (q : Node → Bool)
    (hq : ∀ m : Node, m.id = n.id → q m = true) :
    ∀ (cache : List Node), (cache.map Node.id).Nodup → n ∈ cache →
      (cache.filter q).countP (fun m => decide (m.id = n.id)) = 1 := by
  intro cache
  induction cache with
  | nil => intro _ h; exact absurd h (List.not_mem_nil n)
  | cons m rest ih =>
      intro hnd hmem
      rw [List.map_cons, List.nodup_cons] at hnd
      rcases hnd with ⟨hmid, hndrest⟩
      rcases List.mem_cons.mp hmem with rfl | hmemr
      · rw [List.filter_cons, if_pos (hq n rfl), List.countP_cons, if_pos (by simp)]
        have hz : (rest.filter q).countP (fun x => decide (x.id = n.id)) = 0 := by
          apply countP_id_eq_zero
          intro x hx hxid
          exact hmid (hxid ▸ List.mem_map_of_mem Node.id (List.mem_of_mem_filter hx))
        rw [hz]
      · have hne : ¬ (m.id = n.id) := by
          intro hmn
          exact hmid (hmn ▸ List.mem_map_of_mem Node.id hmemr)
        rw [List.filter_cons]
        by_cases hqm : q m = true
        · rw [if_pos hqm, List.countP_cons, if_neg (by simpa using hne)]
          simpa using ih hndrest hmemr
        · rw [if_neg hqm]
          exact ih hndrest hmemr

/-- C3 counterexample: a failed renewal tick merely stops the renewal task —
the cache is untouched and no event is emitted — and when the watch loop
later observes the node's key gone, the single event emitted for the
transition is `EventNodeLeft`, never the `EventNodeFailed` the claim
requires. -/
theorem c3_counterexample :
    renewStep false [nodeN1] = (RenewOutcome.stopped, [nodeN1], []) ∧
    (processNodeChanges [nodeN1] []).1 =
      [{ eventType := EventType.left, node := nodeN1 }] ∧
    (∀ e ∈ (processNodeChanges [nodeN1] []).1,
      e.eventType ≠ EventType.failed) := by
  refine ⟨rfl, rfl, ?_⟩
  have hev : (processNodeChanges [nodeN1] []).1 =
      [{ eventType := EventType.left, node := nodeN1 }] := rfl
  rw [hev]
  intro e he
  rcases List.mem_singleton.mp he with rfl
  simp

/-- C3 amended: a renewal failure stops the renewal task without removing
the node or emitting any event (there is no retry budget); the node's
disappearance is observed by the watch loop, whose `processNodeChanges`
emits only `joined`/`left` events — exactly one `left` event (and zero
`failed` events) for a cached node whose id is absent from the new
snapshot. -/
theorem c3_amended_left_not_failed (renewOk : Bool) (cache current : List Node)
    (n : Node) :
    ((renewStep renewOk cache).2.1 = cache ∧
      (renewStep renewOk cache).2.2 = []) ∧
    (∀ e ∈ (processNodeChanges cache current).1,
      e.eventType = EventType.joined ∨ e.eventType = EventType.left) ∧
    ((cache.map Node.id).Nodup → n ∈ cache →
      (∀ m ∈ current, m.id ≠ n.id) →
      ((processNodeChanges cache current).1.countP
          (fun e => decide (e.eventType = EventType.left ∧ e.node.id = n.id)))
        = 1 ∧
      ((processNodeChanges cache current).1.countP
          (fun e => decide (e.eventType = EventType.failed))) = 0) := by
  refine ⟨by cases renewOk <;> simp [renewStep], ?_, ?_⟩
  · intro e he
    simp only [processNodeChanges, List.mem_append, List.mem_map,
      List.mem_filter] at he
    rcases he with ⟨a, ha, rfl⟩ | ⟨a, ha, rfl⟩
    · exact Or.inl rfl
    · exact Or.inr rfl
  · intro hnd hmem hcur
    constructor
    · show ((processNodeChanges cache current).1.countP _) = 1
      simp only [processNodeChanges]
      rw [List.countP_append, List.countP_map, List.countP_map]
      have hjoins : (current.filter
          (fun x => ! cache.any (fun m => m.id == x.id))).countP
          ((fun e : NodeEvent =>
              decide (e.eventType = EventType.left ∧ e.node.id = n.id)) ∘
            (fun x => { eventType := EventType.joined, node := x })) = 0 := by
        apply List.countP_eq_zero.mpr
        intro a _
        simp
      have hlefts : (cache.filter
          (fun x => ! current.any (fun m => m.id == x.id))).countP
          ((fun e : NodeEvent =>
              decide (e.eventType = EventType.left ∧ e.node.id = n.id)) ∘
            (fun x => { eventType := EventType.left, node := x })) = 1 := by
        have hq : ∀ m : Node, m.id = n.id →
            (fun x : Node => ! current.any (fun m2 => m2.id == x.id)) m = true := by
          intro m hm
          simp only [Bool.not_eq_eq_eq_not, Bool.not_true, List.any_eq_false]
          intro x hx
          simp [hm, hcur x hx]
        have h1 := countP_filter_id_eq_one n
          (fun x : Node => ! current.any (fun m2 => m2.id == x.id)) hq cache hnd hmem
        rw [← h1]
        apply List.countP_congr
        intro a _
        simp
      rw [hjoins, hlefts]
    · show ((processNodeChanges cache current).1.countP _) = 0
      simp only [processNodeChanges]
      rw [List.countP_append, List.countP_map, List.countP_map]
      rw [List.countP_eq_zero.mpr (by intro a _; simp),
        List.countP_eq_zero.mpr (by intro a _; simp)]

/-- C3 witness: the amended statement at a one-node cache whose node is
absent from the next snapshot. -/
theorem c3_witness :
    ((renewStep false [nodeN1]).2.1 = [nodeN1] ∧
      (renewStep false [nodeN1]).2.2 = []) ∧
    (∀ e ∈ (processNodeChanges [nodeN1] []).1,
      e.eventType = EventType.joined ∨ e.eventType = EventType.left) ∧
    (((processNodeChanges [nodeN1] []).1.countP
        (fun e => decide (e.eventType = EventType.left ∧ e.node.id = nodeN1.id)))
      = 1 ∧
      ((processNodeChanges [nodeN1] []).1.countP
        (fun e => decide (e.eventType = EventType.failed))) = 0) := by
  have h := c3_amended_left_not_failed false [nodeN1] [] nodeN1
  exact ⟨h.1, h.2.1, h.2.2 (by simp) (List.mem_singleton_self nodeN1) (by simp)⟩

end GoScraper
